import Mathlib

set_option maxRecDepth 8000

-- Shallow embedding of src/estrella.js, the build orchestrator wrapping esbuild.
-- Pure fragments of the JavaScript source become Lean functions; stateful
-- fragments (the cancellation callback list, the process caches) become
-- explicit state passing.  JavaScript values that flow through hook returns
-- are modelled by JSVal together with the usual truthiness rules.

inductive JSVal where
  | undef
  | null
  | bool (b : Bool)
  | num (n : Int)
  | str (s : String)
  deriving DecidableEq

def jsTruthy : JSVal → Bool
  | JSVal.undef => false
  | JSVal.null => false
  | JSVal.bool b => b
  | JSVal.num n => n != 0
  | JSVal.str s => s != ""

-- onEnd (estrella.js lines 479-501), user hook present:
--   return returnValue === undefined ? defaultReturn : !!returnValue
-- where returnValue is the (awaited) result of the user onEnd hook and
-- defaultReturn is true from onBuildSuccess, false from onBuildFail.
def onEndResult (returnValue : JSVal) (defaultReturn : Bool) : Bool :=
  if returnValue = JSVal.undef then defaultReturn else jsTruthy returnValue

-- onBuildFail (lines 589-606) finishes with: return onEnd(..., false)
def onBuildFailOutcome (userReturn : JSVal) : Bool :=
  onEndResult userReturn false

-- onBuildSuccess (lines 562-587) finishes with: return onEnd(..., true)
def onBuildSuccessOutcome (userReturn : JSVal) : Bool :=
  onEndResult userReturn true

-- rebuild (lines 300-307 and 552-560).  The handle returned by build()
-- forwards p.rebuild() to ctx.rebuild(), which is first the placeholder
--   rebuild() here logs a warning and returns Promise.resolve(true)
-- and is then reassigned by build1 (during build-cycle setup) to
--   ctx.rebuild = () => _esbuild([]).then(ok => ... return ok)
-- which triggers exactly one _esbuild cycle and returns its outcome.
structure RebuildEffect where
  warned : Bool
  esbuildCycles : Nat
  value : Bool
  deriving DecidableEq

def ctxRebuildInitial : RebuildEffect :=
  { warned := true, esbuildCycles := 0, value := true }

def ctxRebuildActive (esbuildOutcome : Bool) : RebuildEffect :=
  { warned := false, esbuildCycles := 1, value := esbuildOutcome }

def handleRebuild (buildSetupDone : Bool) (esbuildOutcome : Bool) : RebuildEffect :=
  if buildSetupDone then ctxRebuildActive esbuildOutcome else ctxRebuildInitial

-- _esbuild (lines 609-647).  Control flow of one build cycle, in source order:
--   if (config.watch && config.clear) clear()
--   if (config.onStart) await onStart(...)
--   if (config[CANCELED]) return
--   ... invoke esbuild.build(...)
-- The trace records which of the observable steps of the cycle happened.
structure CycleConfig where
  watch : Bool
  clear : Bool
  hasOnStart : Bool
  canceled : Bool
  deriving DecidableEq

structure CycleTrace where
  cleared : Bool
  onStartCalled : Bool
  esbuildInvoked : Bool
  deriving DecidableEq

def runEsbuildCycle (cfg : CycleConfig) : CycleTrace :=
  let cleared := cfg.watch && cfg.clear
  let onStartCalled := cfg.hasOnStart
  if cfg.canceled then
    { cleared := cleared, onStartCalled := onStartCalled, esbuildInvoked := false }
  else
    { cleared := cleared, onStartCalled := onStartCalled, esbuildInvoked := true }

-- build (lines 309-317): the promise executor returns before invoking build1
-- when the handle was already canceled, so the initial cycle never starts.
def buildInvokesBuild1 (canceled : Bool) : Bool :=
  !canceled

-- Cancellation (estrella.js lines 270-298).  build() keeps a CANCELED flag on
-- the config, a list cancelCallbacks of cleanup callbacks, and a resolver.
-- Callbacks are identified here by Nat; invoking a callback is modelled by
-- appending its identifier to the fired log.  Both registration sites pass
-- function literals, so the guard f && f() inside cancel always fires.
inductive Resolution where
  | resolved
  | rejected (reason : String)
  deriving DecidableEq

structure BuildHandleState where
  canceled : Bool
  cancelCallbacks : List Nat
  fired : List Nat
  resolution : Option Resolution
  deriving DecidableEq

def initialBuildHandleState : BuildHandleState :=
  { canceled := false, cancelCallbacks := [], fired := [], resolution := none }

-- addCancelCallback (lines 276-282):
--   if (config[CANCELED]) { f() } else { cancelCallbacks.push(f) }
def addCancelCallback (f : Nat) (s : BuildHandleState) : BuildHandleState :=
  if s.canceled then
    { s with fired := s.fired ++ [f] }
  else
    { s with cancelCallbacks := s.cancelCallbacks ++ [f] }

-- cancel (lines 284-298): guarded by if (!config[CANCELED]); sets the flag,
-- fires the registered callbacks in list (= registration) order, clears the
-- list, then rejects when the reason is truthy and resolves otherwise (an
-- absent or empty-string reason is falsy).
def resolveOrReject (reason : Option String) : Resolution :=
  match reason with
  | some r => if r = "" then Resolution.resolved else Resolution.rejected r
  | none => Resolution.resolved

def cancel (reason : Option String) (s : BuildHandleState) : BuildHandleState :=
  if s.canceled then s
  else
    { canceled := true
      cancelCallbacks := []
      fired := s.fired ++ s.cancelCallbacks
      resolution := some (resolveOrReject reason) }

-- Interleavings of callback registration and cancellation on one handle.
inductive HandleOp where
  | register (f : Nat)
  | cancelOp (reason : Option String)
  deriving DecidableEq

def stepOp (s : BuildHandleState) : HandleOp → BuildHandleState
  | HandleOp.register f => addCancelCallback f s
  | HandleOp.cancelOp r => cancel r s

def runOps (ops : List HandleOp) (s : BuildHandleState) : BuildHandleState :=
  ops.foldl stepOp s

def isRegisterOf (f : Nat) : HandleOp → Bool
  | HandleOp.register g => g = f
  | _ => false

def countRegistrations (f : Nat) (ops : List HandleOp) : Nat :=
  ops.countP (isRegisterOf f)

-- delivered counts, for one callback identifier, the invocations already
-- logged plus the pending registrations that a future cancel would fire.
def delivered (f : Nat) (s : BuildHandleState) : Nat :=
  s.fired.count f + s.cancelCallbacks.count f

-- Project identity (estrella.js lines 239-260).  projectIDForConfig joins
-- cwd, outfile (defaulted to the empty string) and the spread entryPoints
-- with Path.delimiter (":" on POSIX, which this embedding fixes), hashes the
-- joined key with sha1 and base36-encodes the digest.  The digest itself
-- comes from the Node crypto library, an external collaborator outside this
-- repository; sha1Model below stands in for it.

inductive EntryPointsVal where
  | undef
  | str (s : String)
  | arr (l : List String)
  deriving DecidableEq

-- Array.isArray branch spreads the array; a truthy string becomes a one
-- element list; undefined or the empty string (falsy) contributes nothing.
def entryPointsKeyList : EntryPointsVal → List String
  | EntryPointsVal.arr l => l
  | EntryPointsVal.str s => if s = "" then [] else [s]
  | EntryPointsVal.undef => []

structure IdentityConfig where
  cwd : String
  outfile : Option String
  entryPoints : EntryPointsVal
  deriving DecidableEq

def pathDelimiter : String := ":"

def projectKeyForConfig (c : IdentityConfig) : String :=
  String.intercalate pathDelimiter
    (c.cwd :: (c.outfile.getD "") :: entryPointsKeyList c.entryPoints)

/-- Modelled from the spec: the one-way hash used by Project Identity is the
Node crypto sha1, an external collaborator not part of this repository; it is
modelled as a deterministic stand-in producing a 20 byte digest.  No theorem
below depends on which digest function is used: the C4 counterexample
exhibits configurations whose pre-hash keys are already equal. -/
def sha1Model (s : String) : List Nat :=
  let h := s.foldl (fun a c => (a * 131 + c.toNat) % 2 ^ 160) 5381
  (List.range 20).map (fun i => h / 2 ^ (8 * i) % 256)

def digitChar36 (d : Nat) : Char :=
  if d < 10 then Char.ofNat (48 + d) else Char.ofNat (87 + d)

def toString36Core (n : Nat) (acc : List Char) : List Char :=
  if h : n = 0 then acc
  else toString36Core (n / 36) (digitChar36 (n % 36) :: acc)
termination_by n
decreasing_by exact Nat.div_lt_self (Nat.pos_of_ne_zero h) (by norm_num)

-- Number.prototype.toString with radix 36, as used on each 32 bit word.
def toString36 (n : Nat) : String :=
  if n = 0 then "0" else String.mk (toString36Core n [])

def readUInt32LE (buf : List Nat) (i : Nat) : Nat :=
  buf.getD i 0 + buf.getD (i + 1) 0 * 256 + buf.getD (i + 2) 0 * 65536 +
    buf.getD (i + 3) 0 * 16777216

-- base36EncodeBuf (lines 254-260): reads the buffer four bytes at a time as
-- little-endian 32 bit words and concatenates their base 36 renderings.
def base36EncodeBuf (buf : List Nat) : String :=
  String.join (((List.range ((buf.length + 3) / 4)).map
    (fun k => toString36 (readUInt32LE buf (4 * k)))))

def projectIDForConfig (c : IdentityConfig) : String :=
  base36EncodeBuf (sha1Model (projectKeyForConfig c))

-- Config normalization (estrella.js lines 129-163 and 180-204).

/-- Modelled from the spec: the discoverable project manifest (tsconfig.json,
looked up by tsutil.getTSConfigForConfig, a module of this repository that is
not under src/) with its declared file list and its include and exclude glob
pattern lists.  An absent field models a falsy (undefined) property; a present
empty list models a present empty array, which is truthy in JavaScript. -/
structure TSConfig where
  files : Option (List String)
  includePats : Option (List String)
  excludePats : Option (List String)

/-- Modelled from the spec: the glob engine (the external miniglob library).
glob expands an include pattern to the matching files and gmatch tests one
filename against an exclude pattern. -/
structure GlobEnv where
  glob : String → List String
  gmatch : String → String → Bool

-- for (let pat of tsconfig.include) files = files.concat(glob.glob(pat))
def globConcat (env : GlobEnv) (pats : List String) : List String :=
  pats.foldl (fun files pat => files ++ env.glob pat) []

-- if (tsconfig.exclude) for (let pat ...) files = files.filter(fn => !glob.match(pat, fn))
def applyExcludes (env : GlobEnv) (excludePats : Option (List String))
    (files : List String) : List String :=
  match excludePats with
  | some pats => pats.foldl (fun fs pat => fs.filter (fun fn => !env.gmatch pat fn)) files
  | none => files

-- guessEntryPoints (lines 180-204): the declared file list wins; otherwise
-- the include globs minus the exclude globs, keeping files.slice(0, 1).
def guessEntryPoints (env : GlobEnv) (tsconfig : Option TSConfig) : List String :=
  match tsconfig with
  | some tsc =>
    match tsc.files with
    | some fs => fs
    | none =>
      match tsc.includePats with
      | some pats => (applyExcludes env tsc.excludePats (globConcat env pats)).take 1
      | none => []
  | none => []

-- The entry-point related inputs of processConfig: the legacy entry property
-- (a string or an array; an empty string is falsy and is ignored by the
-- if (config.entry) guard) and the entryPoints array.
structure BuildConfigIn where
  entry : Option (Sum String (List String))
  entryPoints : Option (List String)
  sourcemap : JSVal

def mergedEntryPoints (cfg : BuildConfigIn) : List String :=
  let eps := cfg.entryPoints.getD []
  match cfg.entry with
  | none => eps
  | some (Sum.inr arr) => eps ++ arr
  | some (Sum.inl s) => if s = "" then eps else eps ++ [s]

structure ConfigError where
  message : String
  deriving DecidableEq

structure ProcessedConfig where
  entryPoints : List String
  sourcemap : JSVal
  deriving DecidableEq

-- throw new Error(so-called ConfigError in the spec taxonomy), lines 147-150
def noEntryPointsMessage (tsconfig : Option TSConfig) : String :=
  "config.entryPoints is empty or not set" ++
    (if tsconfig.isSome then " (could not guess from tsconfig.json)" else "")

-- sourcemap normalization (lines 154-161)
def normalizeSourcemap (v : JSVal) : JSVal :=
  if jsTruthy v then
    if v = JSVal.str "inline" ∨ v = JSVal.str "external" then v else JSVal.bool true
  else JSVal.bool false

-- processConfig (lines 129-163)
def processConfig (env : GlobEnv) (tsconfig : Option TSConfig) (cfg : BuildConfigIn) :
    Except ConfigError ProcessedConfig :=
  let eps := mergedEntryPoints cfg
  if eps.length = 0 then
    let eps2 := guessEntryPoints env tsconfig
    if eps2.length = 0 then
      Except.error { message := noEntryPointsMessage tsconfig }
    else
      Except.ok { entryPoints := eps2, sourcemap := normalizeSourcemap cfg.sourcemap }
  else
    Except.ok { entryPoints := eps, sourcemap := normalizeSourcemap cfg.sourcemap }

-- A concrete glob environment used by witnesses.
def sampleGlobEnv : GlobEnv :=
  { glob := fun _ => ["a.ts"], gmatch := fun _ _ => false }

-- Watch set derivation, refreshFiles (estrella.js lines 740-781).  The parsed
-- esbuild metadata lists the input files (Object.keys of the inputs object)
-- and the output files (keys of the outputs object).

structure EsbuildMeta where
  inputs : List String
  outputs : List String

def pathSep : String := "/"

-- const nodeModulesPathSubstr = Path.sep + "node_modules" + Path.sep
def nodeModulesPathSubstr : String :=
  pathSep ++ "node_modules" ++ pathSep

-- Substring containment on strings, the behavior of String.prototype.includes.
def strHasSub (s sub : String) : Bool :=
  (List.range (s.length + 1)).any (fun i => (s.drop i).startsWith sub)

-- Member lookup on JavaScript string values for the methods relevant here.
-- JavaScript strings provide includes (the ES2015 substring test) but have no
-- method named contains; calling a missing member raises a TypeError.
def jsStringMethod (name : String) : Option (String → String → Bool) :=
  if name = "includes" then some strHasSub else none

def jsCallStringMethod (recv : String) (name : String) (arg : String) :
    Except String Bool :=
  match jsStringMethod name with
  | some f => Except.ok (f recv arg)
  | none => Except.error ("TypeError: fn." ++ name ++ " is not a function")

-- The loop of refreshFiles (lines 765-779), iterating over srcfiles:
--   if (fn in outfiles) continue
--   if (srcfiles.length > 100 && fn.contains(nodeModulesPathSubstr)) continue
--   sourceFiles.push(fn)
-- A thrown TypeError aborts the loop and rejects refreshFiles.
def collectSourceFiles (srcfiles outfiles : List String) :
    List String → Except String (List String)
  | [] => Except.ok []
  | fn :: rest =>
    if outfiles.contains fn then
      collectSourceFiles srcfiles outfiles rest
    else if srcfiles.length > 100 then
      match jsCallStringMethod fn "contains" nodeModulesPathSubstr with
      | Except.error e => Except.error e
      | Except.ok b =>
        if b then collectSourceFiles srcfiles outfiles rest
        else (collectSourceFiles srcfiles outfiles rest).map (fn :: ·)
    else
      (collectSourceFiles srcfiles outfiles rest).map (fn :: ·)

-- refreshFiles on successfully parsed metadata; the returned list is what
-- fswatcher.setFiles receives, an error is a rejection of refreshFiles (so
-- setFiles is never reached and the watcher keeps its previous file set).
def refreshFiles (meta : EsbuildMeta) : Except String (List String) :=
  collectSourceFiles meta.inputs meta.outputs meta.inputs

-- A metadata file with 101 inputs (one of them under a node_modules
-- directory) and one output.
def c1FailingMeta : EsbuildMeta :=
  { inputs := "/p/src/main.ts" :: "/p/node_modules/lib/x.js" ::
      (List.range 99).map (fun i => "/p/src/f" ++ toString i ++ ".ts")
    outputs := ["/p/out.js"] }

-- Type check process registry, startTSLint (estrella.js lines 789-857).
-- tslint() itself is an external cancellable subprocess handle; the registry
-- state tracks the cache map and how many subprocesses were spawned, with the
-- spawn counter doubling as the next fresh handle identifier.

inductive TSLintOptions where
  | modeStr (s : String)
  | basic (mode : Option String)
  deriving DecidableEq

-- if (tslintOptions && typeof tslintOptions == "object") ... mode == "off"
def tslintModeOff : TSLintOptions → Bool
  | TSLintOptions.basic m => m = some "off"
  | _ => false

structure TSLintConfig where
  cwd : String
  tsconfigFile : Option String
  deriving DecidableEq

structure TSLintRegistry where
  cache : List (String × Nat)
  spawned : Nat
  deriving DecidableEq

-- startTSLint: the object form with mode off short-circuits; otherwise
--   const cacheKey = tsconfigFile || config.cwd
--   a cached process is returned with reused = true and no new spawn,
--   else a new process is spawned, cached, and returned with reused = false.
def startTSLint (opts : TSLintOptions) (cfg : TSLintConfig) (st : TSLintRegistry) :
    (Option Nat × Bool) × TSLintRegistry :=
  if tslintModeOff opts then ((none, false), st)
  else
    let cacheKey := cfg.tsconfigFile.getD cfg.cwd
    match st.cache.lookup cacheKey with
    | some existing => ((some existing, true), st)
    | none =>
      ((some st.spawned, false),
        { cache := (cacheKey, st.spawned) :: st.cache, spawned := st.spawned + 1 })

theorem cancel_canceled (r : Option String) (s : BuildHandleState) :
    (cancel r s).canceled = true := by
  unfold cancel
  split <;> simp_all

theorem stepOp_canceled (s : BuildHandleState) (op : HandleOp)
    (h : s.canceled = true) : (stepOp s op).canceled = true := by
  cases op with
  | register f => simp [stepOp, addCancelCallback, h]
  | cancelOp r => simpa [stepOp] using cancel_canceled r s

theorem runOps_canceled_mono (ops : List HandleOp) (s : BuildHandleState)
    (h : s.canceled = true) : (runOps ops s).canceled = true := by
  induction ops generalizing s with
  | nil => simpa [runOps]
  | cons op rest ih =>
    simpa [runOps, List.foldl_cons] using ih (stepOp s op) (stepOp_canceled s op h)

theorem runOps_canceled_of_mem (ops : List HandleOp) (s : BuildHandleState)
    (h : ∃ r, HandleOp.cancelOp r ∈ ops) : (runOps ops s).canceled = true := by
  induction ops generalizing s with
  | nil => simp_all
  | cons op rest ih =>
    obtain ⟨r, hr⟩ := h
    rcases List.mem_cons.mp hr with heq | hmem
    · subst heq
      simpa [runOps, List.foldl_cons] using
        runOps_canceled_mono rest (stepOp s (HandleOp.cancelOp r))
          (by simpa [stepOp] using cancel_canceled r s)
    · simpa [runOps, List.foldl_cons] using ih (stepOp s op) ⟨r, hmem⟩

theorem delivered_stepOp (f : Nat) (s : BuildHandleState) (op : HandleOp) :
    delivered f (stepOp s op) =
      delivered f s + (if isRegisterOf f op then 1 else 0) := by
  cases op with
  | register g =>
    by_cases hcanc : s.canceled <;>
      by_cases hg : g = f <;>
        simp [stepOp, addCancelCallback, delivered, hcanc, hg, List.count_append,
          List.count_singleton, isRegisterOf] <;> omega
  | cancelOp r =>
    by_cases hcanc : s.canceled <;>
      simp [stepOp, cancel, delivered, hcanc, List.count_append, isRegisterOf]

theorem delivered_runOps (f : Nat) (ops : List HandleOp) (s : BuildHandleState) :
    delivered f (runOps ops s) = delivered f s + countRegistrations f ops := by
  induction ops generalizing s with
  | nil => simp [runOps, countRegistrations]
  | cons op rest ih =>
    have h1 := delivered_stepOp f s op
    have h2 := ih (stepOp s op)
    simp only [runOps, List.foldl_cons] at h2 ⊢
    rw [h2, h1]
    unfold countRegistrations
    rw [List.countP_cons]
    by_cases hp : isRegisterOf f op = true <;> simp [hp] <;> omega

theorem canceled_callbacks_empty (ops : List HandleOp) (s : BuildHandleState)
    (h : s.canceled = true → s.cancelCallbacks = []) :
    (runOps ops s).canceled = true → (runOps ops s).cancelCallbacks = [] := by
  induction ops generalizing s with
  | nil => simpa [runOps]
  | cons op rest ih =>
    simp only [runOps, List.foldl_cons] at ih ⊢
    refine ih (stepOp s op) ?_
    intro hc
    cases op with
    | register g =>
      by_cases hcanc : s.canceled
      · simp [stepOp, addCancelCallback, hcanc, h hcanc]
      · simp [stepOp, addCancelCallback, hcanc] at hc
    | cancelOp r =>
      by_cases hcanc : s.canceled
      · simp [stepOp, cancel, hcanc, h hcanc]
      · simp [stepOp, cancel, hcanc]

/-- Claim C5: cancel() is idempotent: a second or later call (with any reason)
leaves the state, the fired log and the resolution untouched; and on the first
call every registered cleanup callback fires exactly once, appended to the log
in registration order, after which the callback list is cleared. -/
theorem cancel_idempotent_fires_once (r r' : Option String) (s : BuildHandleState) :
    cancel r' (cancel r s) = cancel r s ∧
    (s.canceled = false →
      (cancel r s).fired = s.fired ++ s.cancelCallbacks ∧
      (cancel r s).cancelCallbacks = []) := by
  constructor
  · by_cases h : s.canceled
    · simp [cancel, h]
    · simp [cancel, h]
  · intro h
    simp [cancel, h]

/-- Witness for claim C5: canceling a live handle with two pending callbacks
fires both in order and clears the list, and a second cancel is a no-op. -/
theorem cancel_idempotent_fires_once_witness :
    cancel none (cancel (some "stop")
      { canceled := false, cancelCallbacks := [1, 2], fired := [], resolution := none }) =
      cancel (some "stop")
        { canceled := false, cancelCallbacks := [1, 2], fired := [], resolution := none } ∧
    (cancel (some "stop")
      { canceled := false, cancelCallbacks := [1, 2], fired := [], resolution := none }).fired
      = [1, 2] ∧
    (cancel (some "stop")
      { canceled := false, cancelCallbacks := [1, 2], fired := [], resolution := none
        }).cancelCallbacks = [] := by
  have h := cancel_idempotent_fires_once (some "stop") none
    { canceled := false, cancelCallbacks := [1, 2], fired := [], resolution := none }
  exact ⟨h.1, by simpa using (h.2 rfl).1, (h.2 rfl).2⟩

/-- Claim C10: registering a cleanup callback on an already canceled handle
invokes it immediately (the state change is exactly an append to the fired
log), and over any interleaving of registrations and cancellations that
contains at least one cancel, every callback identifier fires exactly as many
times as it was registered. -/
theorem register_after_cancel_fires_exactly_once :
    (∀ (f : Nat) (s : BuildHandleState), s.canceled = true →
      addCancelCallback f s = { s with fired := s.fired ++ [f] }) ∧
    (∀ (ops : List HandleOp) (f : Nat), (∃ r, HandleOp.cancelOp r ∈ ops) →
      ((runOps ops initialBuildHandleState).fired).count f = countRegistrations f ops) := by
  constructor
  · intro f s h
    simp [addCancelCallback, h]
  · intro ops f h
    have hdel := delivered_runOps f ops initialBuildHandleState
    have hcanc := runOps_canceled_of_mem ops initialBuildHandleState h
    have hnil := canceled_callbacks_empty ops initialBuildHandleState
      (by intro _; rfl) hcanc
    simp only [initialBuildHandleState] at hnil hdel
    simp only [delivered, hnil, List.count_nil] at hdel
    simpa [initialBuildHandleState] using hdel

/-- Witness for claim C10: registering on a canceled handle fires immediately,
and in a trace register-cancel-register the identifier registered on both
sides of the cancel fires twice. -/
theorem register_after_cancel_fires_exactly_once_witness :
    addCancelCallback 5
      { canceled := true, cancelCallbacks := [], fired := [], resolution := none } =
      { canceled := true, cancelCallbacks := [], fired := [5], resolution := none } ∧
    ((runOps [HandleOp.register 1, HandleOp.cancelOp none, HandleOp.register 1]
      initialBuildHandleState).fired).count 1 =
      countRegistrations 1 [HandleOp.register 1, HandleOp.cancelOp none, HandleOp.register 1] := by
  have h := register_after_cancel_fires_exactly_once
  refine ⟨?_, h.2 [HandleOp.register 1, HandleOp.cancelOp none, HandleOp.register 1] 1
    ⟨none, by decide⟩⟩
  have h1 := h.1 5 { canceled := true, cancelCallbacks := [], fired := [], resolution := none } rfl
  simpa using h1

/-- Claim C3: after a failed build cycle the outcome is the truthiness of the
user onEnd return value: false for undefined or any falsy return, true exactly
when onEnd explicitly returns a truthy value (the override is honored and is
what the cycle, hence the build promise, resolves to). -/
theorem onEnd_failure_override (r : JSVal) :
    onBuildFailOutcome r = jsTruthy r := by
  cases r <;> simp [onBuildFailOutcome, onEndResult, jsTruthy]

/-- Claim C9: the outcome override works in both directions: after a successful
cycle a defined falsy return from onEnd flips the outcome to false, a defined
return always makes the outcome its truthiness, and only undefined leaves the
default outcome unchanged. -/
theorem onEnd_override_both_directions :
    (∀ r : JSVal, r ≠ JSVal.undef → jsTruthy r = false → onBuildSuccessOutcome r = false) ∧
    (∀ d : Bool, onEndResult JSVal.undef d = d) ∧
    (∀ r : JSVal, r ≠ JSVal.undef → onBuildSuccessOutcome r = jsTruthy r) := by
  refine ⟨?_, ?_, ?_⟩
  · intro r hne hfalsy
    cases r <;> simp_all [onBuildSuccessOutcome, onEndResult]
  · intro d
    simp [onEndResult]
  · intro r hne
    cases r <;> simp_all [onBuildSuccessOutcome, onEndResult]

/-- Witness for claim C9 at concrete inputs: a defined falsy return (false)
after success yields outcome false, and an undefined return keeps the default
outcome true. -/
theorem onEnd_override_both_directions_witness :
    onBuildSuccessOutcome (JSVal.bool false) = false ∧ onEndResult JSVal.undef true = true := by
  have h := onEnd_override_both_directions
  exact ⟨h.1 (JSVal.bool false) (by decide) (by decide), h.2.1 true⟩

/-- Claim C2 counterexample: rebuild() called before the initial build has
completed does log a warning and triggers no build cycle, but the promise it
returns resolves to true, which is truthy, not falsy as the claim states. -/
theorem rebuild_before_init_resolves_true :
    (handleRebuild false true).warned = true ∧
    (handleRebuild false true).esbuildCycles = 0 ∧
    (handleRebuild false true).value = true ∧
    jsTruthy (JSVal.bool (handleRebuild false true).value) = true := by
  decide

/-- Claim C2 (amended): rebuild() before build1 installs the real rebuild
handler logs a warning, triggers no build cycle, and resolves to true (a no-op
success); once installed, rebuild() triggers exactly one additional _esbuild
cycle and returns that cycle outcome. -/
theorem rebuild_phase_semantics :
    (∀ ok : Bool, handleRebuild false ok =
      { warned := true, esbuildCycles := 0, value := true }) ∧
    (∀ ok : Bool, handleRebuild true ok =
      { warned := false, esbuildCycles := 1, value := ok }) :=
  ⟨fun _ => rfl, fun _ => rfl⟩

/-- Claim C6 counterexample: a cycle that starts with the build already
canceled (watch and clear enabled, an onStart hook configured) still performs
the screen clear and still invokes onStart before the cancellation check; only
the bundler invocation is skipped.  This refutes the claim that the cycle
short-circuits to a no-op as its first step. -/
theorem canceled_cycle_still_clears_and_calls_onStart :
    (runEsbuildCycle { watch := true, clear := true, hasOnStart := true, canceled := true }).cleared
      = true ∧
    (runEsbuildCycle { watch := true, clear := true, hasOnStart := true, canceled := true
      }).onStartCalled = true ∧
    (runEsbuildCycle { watch := true, clear := true, hasOnStart := true, canceled := true
      }).esbuildInvoked = false := by
  decide

/-- Claim C6 (amended): in every cycle that starts with the build canceled the
underlying bundler is never invoked (the check sits immediately before the
bundler call, after the screen clear and the onStart hook), and a build
canceled before its initial cycle starts never invokes build1 at all. -/
theorem canceled_cycle_skips_bundler :
    (∀ cfg : CycleConfig, cfg.canceled = true →
      (runEsbuildCycle cfg).esbuildInvoked = false) ∧
    buildInvokesBuild1 true = false := by
  constructor
  · intro cfg h
    simp [runEsbuildCycle, h]
  · rfl

/-- Witness for the amended claim C6 at a concrete canceled cycle. -/
theorem canceled_cycle_skips_bundler_witness :
    (runEsbuildCycle { watch := false, clear := false, hasOnStart := false, canceled := true
      }).esbuildInvoked = false ∧
    buildInvokesBuild1 true = false := by
  have h := canceled_cycle_skips_bundler
  exact ⟨h.1 { watch := false, clear := false, hasOnStart := false, canceled := true } rfl, h.2⟩

/-- Claim C4 counterexample: two configurations that differ in outfile and in
entryPoints produce the same joined project key, because the join is ambiguous
when the outfile contains the path delimiter, and therefore the same identity
string.  This refutes the only-if direction of the claim. -/
theorem projectID_collision :
    projectIDForConfig
        { cwd := "a", outfile := some "b:c", entryPoints := EntryPointsVal.arr [] } =
      projectIDForConfig
        { cwd := "a", outfile := some "b", entryPoints := EntryPointsVal.arr ["c"] } ∧
    (some "b:c" : Option String) ≠ some "b" ∧
    EntryPointsVal.arr [] ≠ EntryPointsVal.arr ["c"] ∧
    projectKeyForConfig
        { cwd := "a", outfile := some "b:c", entryPoints := EntryPointsVal.arr [] } =
      projectKeyForConfig
        { cwd := "a", outfile := some "b", entryPoints := EntryPointsVal.arr ["c"] } := by
  refine ⟨rfl, by decide, by decide, rfl⟩

/-- Claim C4 (amended): identity is a pure function of the
(cwd, outfile, entryPoints) triple: equal triples always yield the same
identity string; unequal triples yield different identities only with
overwhelming probability, not always, since the joined key can coincide (for
example when the outfile contains the path delimiter) and the hash is not
injective. -/
theorem projectID_of_eq_triple (c1 c2 : IdentityConfig)
    (hcwd : c1.cwd = c2.cwd) (hout : c1.outfile = c2.outfile)
    (hep : c1.entryPoints = c2.entryPoints) :
    projectIDForConfig c1 = projectIDForConfig c2 := by
  cases c1
  cases c2
  simp_all

/-- Witness for the amended claim C4 at a concrete pair of equal triples. -/
theorem projectID_of_eq_triple_witness :
    projectIDForConfig { cwd := "x", outfile := none, entryPoints := EntryPointsVal.undef } =
      projectIDForConfig { cwd := "x", outfile := none, entryPoints := EntryPointsVal.undef } :=
  projectID_of_eq_triple
    { cwd := "x", outfile := none, entryPoints := EntryPointsVal.undef }
    { cwd := "x", outfile := none, entryPoints := EntryPointsVal.undef } rfl rfl rfl

/-- Claim C7: with no entry points supplied the normalizer infers them from
the manifest declared file list, or from the include globs minus the exclude
globs keeping only the first match; if the resulting list is still empty it
fails with the no-entry-points configuration error; and on every input it
either fails with that error or produces a non-empty list of entry points. -/
theorem processConfig_entry_points (env : GlobEnv) (tsconfig : Option TSConfig)
    (cfg : BuildConfigIn) :
    ((∃ e, processConfig env tsconfig cfg = Except.error e) ∨
     (∃ c, processConfig env tsconfig cfg = Except.ok c ∧ 0 < c.entryPoints.length)) ∧
    (∀ t fs, t.files = some fs → guessEntryPoints env (some t) = fs) ∧
    (∀ t pats, t.files = none → t.includePats = some pats →
      guessEntryPoints env (some t) =
        (applyExcludes env t.excludePats (globConcat env pats)).take 1) ∧
    (mergedEntryPoints cfg = [] → guessEntryPoints env tsconfig = [] →
      processConfig env tsconfig cfg = Except.error { message := noEntryPointsMessage tsconfig }) := by
  refine ⟨?_, ?_, ?_, ?_⟩
  · by_cases h1 : (mergedEntryPoints cfg).length = 0
    · by_cases h2 : (guessEntryPoints env tsconfig).length = 0
      · left
        refine ⟨{ message := noEntryPointsMessage tsconfig }, ?_⟩
        simp [processConfig, h1, h2]
      · right
        refine ⟨{ entryPoints := guessEntryPoints env tsconfig
                  sourcemap := normalizeSourcemap cfg.sourcemap }, ?_, ?_⟩
        · simp [processConfig, h1, h2]
        · simp only []
          omega
    · right
      refine ⟨{ entryPoints := mergedEntryPoints cfg
                sourcemap := normalizeSourcemap cfg.sourcemap }, ?_, ?_⟩
      · simp [processConfig, h1]
      · simp only []
        omega
  · intro t fs hfs
    simp [guessEntryPoints, hfs]
  · intro t pats hfs hpats
    simp [guessEntryPoints, hfs, hpats]
  · intro h1 h2
    simp [processConfig, h1, h2]

/-- Witness for claim C7 at concrete inputs: the declared file list of a
manifest is taken over as is, and with no entry, no entryPoints and no
manifest the normalizer fails with the no-entry-points error. -/
theorem processConfig_entry_points_witness :
    guessEntryPoints sampleGlobEnv
        (some { files := some ["m.ts"], includePats := none, excludePats := none }) = ["m.ts"] ∧
    processConfig sampleGlobEnv none
        { entry := none, entryPoints := none, sourcemap := JSVal.undef } =
      Except.error { message := "config.entryPoints is empty or not set" } := by
  have h := processConfig_entry_points sampleGlobEnv none
    { entry := none, entryPoints := none, sourcemap := JSVal.undef }
  exact ⟨h.2.1 { files := some ["m.ts"], includePats := none, excludePats := none } ["m.ts"] rfl,
    h.2.2.2 rfl rfl⟩

-- When the input set has at most 100 entries the library-exclusion branch is
-- never reached (short-circuit of &&), so the watch set is exactly the inputs
-- minus the outputs and no dependency-library path is excluded.
theorem collectSourceFiles_small (srcfiles outfiles : List String)
    (h : srcfiles.length ≤ 100) (l : List String) :
    collectSourceFiles srcfiles outfiles l =
      Except.ok (l.filter (fun fn => !outfiles.contains fn)) := by
  induction l with
  | nil => simp [collectSourceFiles]
  | cons fn rest ih =>
    by_cases hc : fn ∈ outfiles <;>
      simp [collectSourceFiles, hc, Nat.not_lt.mpr h, ih, List.filter_cons, Except.map]

/-- Claim C1: the code of refreshFiles intends to drop dependency-library
paths when the input set exceeds 100 entries, but it calls fn.contains, which
is not a JavaScript string method (String.prototype has includes, not
contains).  Evaluating refreshFiles on a metadata file with 101 inputs and
one output therefore throws a TypeError instead of installing the watch set:
the watcher receives no file set at all, rather than inputs minus outputs
minus node_modules paths. -/
theorem refreshFiles_large_input_throws :
    refreshFiles c1FailingMeta =
      Except.error "TypeError: fn.contains is not a function" ∧
    c1FailingMeta.inputs.length = 101 ∧
    c1FailingMeta.inputs.contains "/p/node_modules/lib/x.js" = true := by
  refine ⟨rfl, by decide, by decide⟩

/-- Claim C8: type-check processes are cached by the type-config file path
when one is found, else by the working directory: when the cache already holds
a process for that key, startTSLint returns that very handle with reused true
and leaves the registry untouched (no duplicate subprocess is spawned); for a
fresh key it spawns and returns a new handle with reused false. -/
theorem startTSLint_cache_reuse (opts : TSLintOptions) (cfg : TSLintConfig)
    (st : TSLintRegistry) (hmode : tslintModeOff opts = false) :
    (∀ p, st.cache.lookup (cfg.tsconfigFile.getD cfg.cwd) = some p →
      startTSLint opts cfg st = ((some p, true), st)) ∧
    (st.cache.lookup (cfg.tsconfigFile.getD cfg.cwd) = none →
      startTSLint opts cfg st =
        ((some st.spawned, false),
          { cache := (cfg.tsconfigFile.getD cfg.cwd, st.spawned) :: st.cache
            spawned := st.spawned + 1 })) := by
  constructor
  · intro p hp
    simp [startTSLint, hmode, hp]
  · intro hp
    simp [startTSLint, hmode, hp]

/-- Witness for claim C8: a registry already holding a process for the found
tsconfig path returns it with reused true and unchanged state, and the same
request against an empty registry spawns handle 0 with reused false. -/
theorem startTSLint_cache_reuse_witness :
    startTSLint (TSLintOptions.modeStr "on")
        { cwd := "/proj", tsconfigFile := some "/proj/tsconfig.json" }
        { cache := [("/proj/tsconfig.json", 0)], spawned := 1 } =
      ((some 0, true), { cache := [("/proj/tsconfig.json", 0)], spawned := 1 }) ∧
    startTSLint (TSLintOptions.modeStr "on")
        { cwd := "/proj", tsconfigFile := some "/proj/tsconfig.json" }
        { cache := [], spawned := 0 } =
      ((some 0, false), { cache := [("/proj/tsconfig.json", 0)], spawned := 0 + 1 }) := by
  have h1 := startTSLint_cache_reuse (TSLintOptions.modeStr "on")
    { cwd := "/proj", tsconfigFile := some "/proj/tsconfig.json" }
    { cache := [("/proj/tsconfig.json", 0)], spawned := 1 } rfl
  have h2 := startTSLint_cache_reuse (TSLintOptions.modeStr "on")
    { cwd := "/proj", tsconfigFile := some "/proj/tsconfig.json" }
    { cache := [], spawned := 0 } rfl
  exact ⟨h1.1 0 rfl, h2.2 rfl⟩
